import Mathlib

/-!
# A shallow embedding of the ray-tracing core of the 3D renderer

Sources: `src/vector3.h`, `src/vector3.cpp`, `src/main.cpp`.

Modelling conventions.

* Every definition that computes with the C++ type `double` is written once,
  from the source, over a type `K` that carries the operations of the class
  `DoubleArith`, and it has two readings.  For `K = F64` the operations are
  those of IEEE 754 binary64 (round to nearest, ties to even, subnormal
  numbers, infinities and NaN): this is the arithmetic in which the program
  runs.  For a linearly ordered field `K` the operations are the exact ones:
  this is the arithmetic in which no operation rounds.  A theorem stated for
  an ordered field says what the code computes in exact arithmetic; a theorem
  about `F64` says what it computes in binary64.  On finite values the
  comparisons of `F64` are those of the rational numbers.  All definitions are
  computable; the values in binary64 are obtained by evaluation.
* The functions `sqrt` and `pow` of `<math.h>` and the constant `DBL_MAX` of
  `<float.h>` are not code of the repository.  They are passed to the
  definitions as a record `CMath K`: `f64Math` in binary64 (`sqrt`, `pow(x, 2.0)`
  and `pow(x, 0.5)` correctly rounded, the special values of `pow` as in C11
  Annex F), `realMath` over the real numbers.  The theorems about exact
  arithmetic that depend on the meaning of `sqrt` and `pow` assume `CMath.Exact`.
* A C++ function with an output reference parameter and a `bool` result
  (`Sphere::intersect`) becomes a function to `Option`.
* The recursive procedure `rayTrace` is given a fuel argument that bounds the
  nesting depth of invocations: one unit is used by each nested invocation, and
  the result is `none` exactly when the fuel does not suffice.
-/

namespace Renderer

/-! ## The C library -/

/-- The part of the C standard library that the program uses. -/
structure CMath (K : Type) where
  /-- The function `sqrt` of `math.h`. -/
  sqrt : K → K
  /-- The function `pow` of `math.h`. -/
  pow : K → K → K
  /-- The constant `DBL_MAX` of `float.h`. -/
  DBL_MAX : K

/-- The library functions compute exact results: `sqrt` is the non-negative
square root, `pow x 2` is the square and `pow x 0.5` is the square root. -/
structure CMath.Exact {K : Type} [LinearOrderedField K] (M : CMath K) : Prop where
  sqrt_nonneg : ∀ x : K, 0 ≤ x → 0 ≤ M.sqrt x
  sqrt_mul_self : ∀ x : K, 0 ≤ x → M.sqrt x * M.sqrt x = x
  pow_two : ∀ x : K, M.pow x 2 = x * x
  pow_half : ∀ x : K, 0 ≤ x → M.pow x (1 / 2) = M.sqrt x

/-- The C library over the real numbers: `DBL_MAX = (2^53 - 1) * 2^971`. -/
noncomputable def realMath : CMath ℝ :=
  { sqrt := Real.sqrt
    pow := fun x y => x ^ y
    DBL_MAX := (2 ^ 53 - 1) * 2 ^ 971 }

/-! ## The arithmetic of `double` -/

/-- The operations on the C++ type `double` that the program uses: the
constants, the conversion of an integer literal, the four operations, the
negation and the comparisons `<` and `==`.  The comparison `a > b` is `b < a`.
The program applies `==` to a `double` only against the constant 0
(vector3.cpp:34, main.cpp:65), where it agrees with the equality of values. -/
class DoubleArith (K : Type) where
  zero : K
  one : K
  natCast : Nat → K
  add : K → K → K
  sub : K → K → K
  mul : K → K → K
  div : K → K → K
  neg : K → K
  lt : K → K → Prop
  decLt : DecidableRel lt
  decEq : DecidableEq K

section DoubleArithInstances

variable {K : Type} [DoubleArith K]

instance (priority := low) DoubleArith.instZero : Zero K := ⟨DoubleArith.zero⟩

instance (priority := low) DoubleArith.instOne : One K := ⟨DoubleArith.one⟩

instance (priority := low) DoubleArith.instNatCast : NatCast K := ⟨DoubleArith.natCast⟩

instance (priority := low) DoubleArith.instAdd : Add K := ⟨DoubleArith.add⟩

instance (priority := low) DoubleArith.instSub : Sub K := ⟨DoubleArith.sub⟩

instance (priority := low) DoubleArith.instMul : Mul K := ⟨DoubleArith.mul⟩

instance (priority := low) DoubleArith.instDiv : Div K := ⟨DoubleArith.div⟩

instance (priority := low) DoubleArith.instNeg : Neg K := ⟨DoubleArith.neg⟩

instance (priority := low) DoubleArith.instLT : LT K := ⟨DoubleArith.lt⟩

instance (priority := low) DoubleArith.instDecidableLT (a b : K) : Decidable (a < b) :=
  DoubleArith.decLt a b

instance (priority := low) DoubleArith.instDecidableEq : DecidableEq K :=
  DoubleArith.decEq

end DoubleArithInstances

/-- Exact arithmetic: the operations of a linearly ordered field. -/
instance (priority := low) DoubleArith.ofField {K : Type} [LinearOrderedField K] :
    DoubleArith K where
  zero := 0
  one := 1
  natCast := Nat.cast
  add := fun a b => a + b
  sub := fun a b => a - b
  mul := fun a b => a * b
  div := fun a b => a / b
  neg := fun a => -a
  lt := fun a b => a < b
  decLt := inferInstance
  decEq := inferInstance

/-- The function `std::max` on `double`, as `rayTrace` calls it. -/
def stdMax {K : Type} [DoubleArith K] (a b : K) : K :=
  if a < b then b else a

/-! ## IEEE 754 binary64 -/

/-- The power `2 ^ e` for an integer exponent. -/
def pow2 (e : Int) : ℚ :=
  if 0 ≤ e then ((2 ^ e.toNat : Nat) : ℚ) else 1 / ((2 ^ (-e).toNat : Nat) : ℚ)

/-- The number `floor (log2 n)` for `n > 0`, by repeated halving; the first
argument bounds the number of halvings. -/
def natLog2Aux : Nat → Nat → Nat
  | 0, _ => 0
  | k + 1, n => if n < 2 then 0 else natLog2Aux k (n / 2) + 1

/-- The number `floor (log2 n)` for `0 < n < 2 ^ 8192`. -/
def natLog2 (n : Nat) : Nat :=
  natLog2Aux 8192 n

/-- The exponent `floor (log2 q)` of a positive rational number. -/
def ilog2 (q : ℚ) : Int :=
  let e0 : Int := (natLog2 q.num.natAbs : Int) - (natLog2 q.den : Int)
  if pow2 e0 ≤ q then e0 else e0 - 1

/-- The integer nearest to a non-negative rational number, the even one of the
two when they are equally near. -/
def roundHalfEven (x : ℚ) : Nat :=
  let f : Nat := x.num.natAbs / x.den
  let r : ℚ := x - (f : ℚ)
  if r < 1 / 2 then f else if 1 / 2 < r then f + 1 else if f % 2 = 0 then f else f + 1

/-- The values of the format binary64: the finite ones, given by their exact
rational value, the two infinities and NaN.  The zeros `+0` and `-0` are one
value: the comparisons do not tell them apart, and they differ only in the
sign of a quotient by zero and of some special values of `pow`.  Every
operation below returns a value of the format; a literal denotes the value
nearest to it. -/
inductive F64 where
  | fin (q : ℚ)
  | pinf
  | ninf
  | nan
deriving DecidableEq

/-- Rounding of a positive rational number to binary64, to nearest, ties to
even: 53 significant bits, subnormal below `2 ^ (-1022)`, infinite from
`2 ^ 1024` on.  The result is the magnitude, `none` for the infinite one. -/
def roundPos (a : ℚ) : Option ℚ :=
  let e := ilog2 a
  let u := pow2 (max e (-1022) - 52)
  let res : ℚ := (roundHalfEven (a / u) : ℚ) * u
  if pow2 1024 ≤ res then none else some res

/-- Rounding of a rational number to binary64 (round to nearest, ties to even). -/
def F64.round (q : ℚ) : F64 :=
  if q = 0 then .fin 0
  else if 0 < q then
    match roundPos q with
    | some r => .fin r
    | none => .pinf
  else
    match roundPos (-q) with
    | some r => .fin (-r)
    | none => .ninf

/-- The negation of binary64. -/
def F64.neg : F64 → F64
  | .fin a => .fin (-a)
  | .pinf => .ninf
  | .ninf => .pinf
  | .nan => .nan

/-- The addition of binary64. -/
def F64.add : F64 → F64 → F64
  | .fin a, .fin b => F64.round (a + b)
  | .nan, _ => .nan
  | _, .nan => .nan
  | .pinf, .ninf => .nan
  | .ninf, .pinf => .nan
  | .pinf, _ => .pinf
  | _, .pinf => .pinf
  | .ninf, _ => .ninf
  | _, .ninf => .ninf

/-- The subtraction of binary64. -/
def F64.sub (a b : F64) : F64 :=
  F64.add a (F64.neg b)

/-- An infinity of the sign of a non-zero rational number. -/
def F64.infOfSign (q : ℚ) : F64 :=
  if 0 < q then .pinf else .ninf

/-- The multiplication of binary64. -/
def F64.mul : F64 → F64 → F64
  | .fin a, .fin b => F64.round (a * b)
  | .nan, _ => .nan
  | _, .nan => .nan
  | .pinf, .fin b => if b = 0 then .nan else F64.infOfSign b
  | .ninf, .fin b => if b = 0 then .nan else F64.infOfSign (-b)
  | .fin a, .pinf => if a = 0 then .nan else F64.infOfSign a
  | .fin a, .ninf => if a = 0 then .nan else F64.infOfSign (-a)
  | .pinf, .pinf => .pinf
  | .pinf, .ninf => .ninf
  | .ninf, .pinf => .ninf
  | .ninf, .ninf => .pinf

/-- The division of binary64; a zero divisor is `+0`. -/
def F64.div : F64 → F64 → F64
  | .fin a, .fin b =>
    if b = 0 then (if a = 0 then .nan else F64.infOfSign a) else F64.round (a / b)
  | .nan, _ => .nan
  | _, .nan => .nan
  | .fin _, .pinf => .fin 0
  | .fin _, .ninf => .fin 0
  | .pinf, .fin b => if 0 ≤ b then .pinf else .ninf
  | .ninf, .fin b => if 0 ≤ b then .ninf else .pinf
  | .pinf, .pinf => .nan
  | .pinf, .ninf => .nan
  | .ninf, .pinf => .nan
  | .ninf, .ninf => .nan

/-- The comparison `<` of binary64, as a Boolean; it is false when an operand is NaN. -/
def F64.blt : F64 → F64 → Bool
  | .fin a, .fin b => decide (a < b)
  | .fin _, .pinf => true
  | .ninf, .fin _ => true
  | .ninf, .pinf => true
  | _, _ => false

/-- The integer square root, by bisection over the `k` low bits. -/
def isqrtAux (n : Nat) : Nat → Nat → Nat
  | 0, acc => acc
  | k + 1, acc =>
    if (acc + 2 ^ k) * (acc + 2 ^ k) ≤ n then isqrtAux n k (acc + 2 ^ k) else isqrtAux n k acc

/-- The integer square root `floor (sqrt n)`. -/
def isqrt (n : Nat) : Nat :=
  isqrtAux n (natLog2 n / 2 + 1) 0

/-- The correctly rounded square root of a positive rational number. -/
def sqrtPos (q : ℚ) : ℚ :=
  let e := ilog2 q
  let er : Int :=
    if 0 ≤ e then ((e.toNat / 2 : Nat) : Int) else -((((-e).toNat + 1) / 2 : Nat) : Int)
  let u := pow2 (er - 52)
  let x : ℚ := q / (u * u)
  let n : Nat := isqrt (x.num.natAbs / x.den)
  let mid : ℚ := (n : ℚ) * n + n + 1 / 4
  let m : Nat := if x < mid then n else if mid < x then n + 1 else if n % 2 = 0 then n else n + 1
  (m : ℚ) * u

/-- The function `sqrt` of binary64, correctly rounded as IEEE 754 requires. -/
def F64.sqrt : F64 → F64
  | .fin q => if q < 0 then .nan else if q = 0 then .fin 0 else .fin (sqrtPos q)
  | .pinf => .pinf
  | .ninf => .nan
  | .nan => .nan

/-- The function `pow` of `math.h` on binary64.  The special values are those
of C11 Annex F.10.4.4; `pow(x, 2.0)` and `pow(x, 0.5)` are taken correctly
rounded; the values that the C standard leaves to the library are those of the
parameter `libm`. -/
def F64.pow (libm : ℚ → ℚ → F64) (x y : F64) : F64 :=
  match x, y with
  | .fin a, .fin b =>
    if b = 0 then .fin 1
    else if a = 1 then .fin 1
    else if a = 0 then (if b < 0 then .pinf else .fin 0)
    else if b = 2 then F64.round (a * a)
    else if a < 0 ∧ b.den ≠ 1 then .nan
    else if b = 1 / 2 then F64.sqrt (.fin a)
    else libm a b
  | .nan, .fin b => if b = 0 then .fin 1 else .nan
  | .fin a, .nan => if a = 1 then .fin 1 else .nan
  | .nan, _ => .nan
  | _, .nan => .nan
  | .fin a, .pinf =>
    if -1 < a ∧ a < 1 then .fin 0 else if a = 1 ∨ a = -1 then .fin 1 else .pinf
  | .fin a, .ninf =>
    if -1 < a ∧ a < 1 then .pinf else if a = 1 ∨ a = -1 then .fin 1 else .fin 0
  | .pinf, .fin b => if b = 0 then .fin 1 else if b < 0 then .fin 0 else .pinf
  | .ninf, .fin b =>
    if b = 0 then .fin 1 else if b < 0 then .fin 0
    else if b.den = 1 ∧ b.num % 2 = 1 then .ninf else .pinf
  | .pinf, .pinf => .pinf
  | .pinf, .ninf => .fin 0
  | .ninf, .pinf => .pinf
  | .ninf, .ninf => .fin 0

/-- The values of `pow` that neither the C standard nor correct rounding
determine are not modelled: no evaluation below reaches them. -/
def F64.powUnspecified : ℚ → ℚ → F64 :=
  fun _ _ => .nan

/-- The arithmetic of binary64. -/
instance F64.instDoubleArith : DoubleArith F64 where
  zero := .fin 0
  one := .fin 1
  natCast := fun n => F64.round (n : ℚ)
  add := F64.add
  sub := F64.sub
  mul := F64.mul
  div := F64.div
  neg := F64.neg
  lt := fun a b => F64.blt a b = true
  decLt := fun a b => inferInstanceAs (Decidable (F64.blt a b = true))
  decEq := inferInstance

/-- The test `isfinite` of `math.h`: the value is neither infinite nor NaN. -/
def F64.isFinite : F64 → Bool
  | .fin _ => true
  | _ => false

/-- A decimal literal denotes the binary64 value nearest to it, as in C++. -/
instance F64.instOfScientific : OfScientific F64 :=
  ⟨fun m s e => F64.round (Rat.ofScientific m s e)⟩

/-- The C library on binary64: `DBL_MAX = (2^53 - 1) * 2^971`. -/
def f64Math : CMath F64 :=
  { sqrt := F64.sqrt
    pow := F64.pow F64.powUnspecified
    DBL_MAX := .fin ((2 ^ 53 - 1) * 2 ^ 971) }

/-! ## vector3.h, vector3.cpp -/

/-- The class `Vector3` (vector3.h:3-19). -/
structure Vector3 (K : Type) where
  x_ : K
  y_ : K
  z_ : K
deriving DecidableEq

section Vec

variable {K : Type} [DoubleArith K]

/-- The default constructor `Vector3::Vector3()` (vector3.cpp:5). -/
def Vector3.zero : Vector3 K :=
  ⟨0, 0, 0⟩

/-- The operator `Vector3::operator-` (vector3.cpp:8-10). -/
def Vector3.sub (v o : Vector3 K) : Vector3 K :=
  ⟨v.x_ - o.x_, v.y_ - o.y_, v.z_ - o.z_⟩

/-- The operator `Vector3::operator+` (vector3.cpp:11-13). -/
def Vector3.add (v o : Vector3 K) : Vector3 K :=
  ⟨v.x_ + o.x_, v.y_ + o.y_, v.z_ + o.z_⟩

/-- The operator `Vector3::operator*` (vector3.cpp:14-16). -/
def Vector3.mul (v : Vector3 K) (k : K) : Vector3 K :=
  ⟨k * v.x_, k * v.y_, k * v.z_⟩

/-- The operator `Vector3::operator/` (vector3.cpp:17-19). -/
def Vector3.div (v : Vector3 K) (k : K) : Vector3 K :=
  ⟨v.x_ / k, v.y_ / k, v.z_ / k⟩

instance : Sub (Vector3 K) := ⟨Vector3.sub⟩

instance : Add (Vector3 K) := ⟨Vector3.add⟩

instance : HMul (Vector3 K) K (Vector3 K) := ⟨Vector3.mul⟩

instance : HDiv (Vector3 K) K (Vector3 K) := ⟨Vector3.div⟩

/-- The method `Vector3::length` (vector3.cpp:26-28). -/
def Vector3.length (M : CMath K) (v : Vector3 K) : K :=
  M.sqrt (v.x_ * v.x_ + v.y_ * v.y_ + v.z_ * v.z_)

/-- The method `Vector3::lengthsqr` (vector3.cpp:29-31). -/
def Vector3.lengthsqr (v : Vector3 K) : K :=
  v.x_ * v.x_ + v.y_ * v.y_ + v.z_ * v.z_

/-- The method `Vector3::normalize` (vector3.cpp:32-39); the vector is updated
in place in the source and returned here. -/
def Vector3.normalize (M : CMath K) (v : Vector3 K) : Vector3 K :=
  let l := v.length M
  if l = 0 then v
  else ⟨v.x_ / l, v.y_ / l, v.z_ / l⟩

/-- Division that faults on a zero divisor: `none` stands for the fault. -/
def checkedDiv (a b : K) : Option K :=
  if b = 0 then none else some (a / b)

/-- The method `Vector3::normalize` (vector3.cpp:32-39) with each of its three
divisions read as a faulting operation: the result is `none` when the method
divides by zero. -/
def Vector3.normalizeChecked (M : CMath K) (v : Vector3 K) : Option (Vector3 K) :=
  let l := v.length M
  if l = 0 then some v
  else
    (checkedDiv v.x_ l).bind fun x =>
    (checkedDiv v.y_ l).bind fun y =>
    (checkedDiv v.z_ l).bind fun z =>
    some ⟨x, y, z⟩

/-- The function `dot_prod` (vector3.cpp:41-43). -/
def dot_prod (v u : Vector3 K) : K :=
  v.x_ * u.x_ + v.y_ * u.y_ + v.z_ * u.z_

/-- The function `elem_mult` (vector3.cpp:44-46). -/
def elem_mult (v u : Vector3 K) : Vector3 K :=
  ⟨v.x_ * u.x_, v.y_ * u.y_, v.z_ * u.z_⟩

end Vec

/-- The three components are finite binary64 values. -/
def Vector3.isFinite (v : Vector3 F64) : Bool :=
  v.x_.isFinite && v.y_.isFinite && v.z_.isFinite

/-- The macro `EPSILON` (main.cpp:15).  The decimal literal `1e-5` is written as
the quotient `1 / 100000`; in binary64 the quotient is rounded to the value of
the literal. -/
def EPSILON {K : Type} [DoubleArith K] : K :=
  1 / 100000

/-- The macro `MAX_BOUNCES` (main.cpp:17). -/
def MAX_BOUNCES : Int :=
  2

/-- The class `Ray` (main.cpp:24-28). -/
structure Ray (K : Type) where
  start : Vector3 K
  dir : Vector3 K
deriving DecidableEq

/-- The class `HitData` (main.cpp:30-35). -/
structure HitData (K : Type) where
  distance : K
  intersection : Vector3 K
  normal : Vector3 K
  isInside : Bool
deriving DecidableEq

/-- The geometric members of the class `Sphere` (main.cpp:51-57). -/
structure Sphere (K : Type) where
  c_ : Vector3 K
  r_ : K

section Geometry

variable {K : Type} [DoubleArith K]

/-- The discriminant `delta` of `Sphere::intersect` (main.cpp:60). -/
def Sphere.delta (M : CMath K) (s : Sphere K) (ray : Ray K) : K :=
  M.pow (dot_prod ray.dir (ray.start - s.c_)) 2
    - ((ray.start - s.c_).lengthsqr - M.pow s.r_ 2)

/-- The choice of the parameter `t` in `Sphere::intersect` (main.cpp:61-80):
`none` when the method returns `false`. -/
def Sphere.root (M : CMath K) (s : Sphere K) (ray : Ray K) : Option K :=
  let delta := s.delta M ray
  if delta < 0 then none
  else if delta = 0 then some (-dot_prod ray.dir (ray.start - s.c_))
  else
    let t1 := -dot_prod ray.dir (ray.start - s.c_) + M.pow delta (1 / 2)
    let t2 := -dot_prod ray.dir (ray.start - s.c_) - M.pow delta (1 / 2)
    if t2 < 0 ∧ t1 < 0 then none
    else if t2 < 0 then some t1
    else some t2

/-- The hit record that `Sphere::intersect` fills in for the parameter `t`
(main.cpp:81-95). -/
def Sphere.hitAt (M : CMath K) (s : Sphere K) (ray : Ray K) (t : K) : HitData K :=
  let intersection := ray.start + ray.dir * t
  let normal := (intersection - s.c_).normalize M
  if dot_prod ray.dir normal > 0 then
    { distance := t, intersection := intersection, normal := normal * (-1 : K), isInside := true }
  else
    { distance := t, intersection := intersection, normal := normal, isInside := false }

/-- The method `Sphere::intersect` (main.cpp:59-96): `none` for the result
`false`, `some data` for the result `true` with the record written to `data`. -/
def Sphere.intersect (M : CMath K) (s : Sphere K) (ray : Ray K) : Option (HitData K) :=
  (s.root M ray).map (s.hitAt M ray)

end Geometry

/-! ## main.cpp: the scene model -/

/-- The class `SceneObject` (main.cpp:37-49): the material members and the
virtual method `intersect`, which is a field of the record. -/
structure SceneObject (K : Type) where
  ambient : Vector3 K
  diffuse : Vector3 K
  specular : Vector3 K
  shininess : K
  isGlass : Bool
  refractiveIndex : K
  intersect : Ray K → Option (HitData K)

/-- The class `Light` (main.cpp:99-110). -/
structure Light (K : Type) where
  pos : Vector3 K
  ambient : Vector3 K
  diffuse : Vector3 K
  specular : Vector3 K

/-- The class `Camera` (main.cpp:112-121). -/
structure Camera (K : Type) where
  pos : Vector3 K
  up : Vector3 K
  lookAt : Vector3 K
  focalLength : K

/-- The data members of the class `Scene` (main.cpp:123-128). -/
structure Scene (K : Type) where
  sceneObjects : List (SceneObject K)
  lights : List (Light K)
  cameras : List (Camera K)
  activeCamera : Int

/-- The width in bits of the type `size_t` that `cameras.size()` returns. -/
def SIZE_WIDTH : Nat :=
  64

/-- The method `Scene::setActiveCamera` (main.cpp:136-140).  The comparison
`i < cameras.size()` is between an `int` and a `size_t`, so `i` is converted to
`size_t` first, that is reduced modulo `2 ^ SIZE_WIDTH`. -/
def Scene.setActiveCamera {K : Type} (s : Scene K) (i : Int) : Scene K :=
  if i % (2 : Int) ^ SIZE_WIDTH < (s.cameras.length : Int) then { s with activeCamera := i }
  else s

section Tracer

variable {K : Type} [DoubleArith K]

/-- A sphere with a material, as a scene object (main.cpp:51-97). -/
def Sphere.toSceneObject (M : CMath K) (s : Sphere K) (ambient diffuse specular : Vector3 K)
    (shininess : K) (isGlass : Bool) (refractiveIndex : K) : SceneObject K :=
  { ambient := ambient, diffuse := diffuse, specular := specular, shininess := shininess,
    isGlass := isGlass, refractiveIndex := refractiveIndex, intersect := s.intersect M }

/-- The variables that the object loop of `rayTrace` updates (main.cpp:163-165):
`minDistance`, and `closestObject` together with `minHitData`, which has a
meaning only when `closestObject` is not null. -/
structure ScanState (K : Type) where
  minDistance : K
  closest : Option (HitData K × SceneObject K)

/-- One iteration of the object loop of `rayTrace` (main.cpp:168-181). -/
def scanStep (ray : Ray K) (st : ScanState K) (obj : SceneObject K) : ScanState K :=
  match obj.intersect ray with
  | none => st
  | some hitData =>
    if hitData.distance < EPSILON then st
    else if hitData.distance > st.minDistance then st
    else { minDistance := hitData.distance, closest := some (hitData, obj) }

/-- The object loop of `rayTrace` (main.cpp:164-182). -/
def scanObjects (M : CMath K) (ray : Ray K) (objs : List (SceneObject K)) : ScanState K :=
  objs.foldl (scanStep ray) { minDistance := M.DBL_MAX, closest := none }

/-- The sky colour that `rayTrace` stores when nothing is hit
(main.cpp:185-187); the literal `0.7` is written as the quotient `7 / 10`. -/
def skyColor : Vector3 K :=
  ⟨7 / 10, 7 / 10, 1⟩

/-- The view vector `V` of `rayTrace` (main.cpp:191-192). -/
def viewVector (M : CMath K) (ray : Ray K) (minHitData : HitData K) : Vector3 K :=
  (ray.start - minHitData.intersection).normalize M

/-- The shading normal `N` of `rayTrace` (main.cpp:193-194). -/
def shadingNormal (M : CMath K) (minHitData : HitData K) : Vector3 K :=
  minHitData.normal.normalize M

/-- The vector `L` of the light loop of `rayTrace` (main.cpp:201-202). -/
def lightL (M : CMath K) (minHitData : HitData K) (l : Light K) : Vector3 K :=
  (l.pos - minHitData.intersection).normalize M

/-- The vector `R` of the light loop of `rayTrace` (main.cpp:204-205). -/
def lightR (M : CMath K) (minHitData : HitData K) (N : Vector3 K) (l : Light K) : Vector3 K :=
  (N * (dot_prod (lightL M minHitData l) N * 2) - lightL M minHitData l).normalize M

/-- The factor `max(0.0, dot_prod(L, N))` of the diffuse term (main.cpp:208). -/
def diffuseFactor (M : CMath K) (minHitData : HitData K) (N : Vector3 K) (l : Light K) : K :=
  stdMax 0 (dot_prod (lightL M minHitData l) N)

/-- The factor `pow(max(0.0, dot_prod(R, V)), closestObject->shininess)` of the
specular term (main.cpp:209). -/
def specularFactor (M : CMath K) (closestObject : SceneObject K) (minHitData : HitData K)
    (V N : Vector3 K) (l : Light K) : K :=
  M.pow (stdMax 0 (dot_prod (lightR M minHitData N l) V)) closestObject.shininess

/-- The term `ambient + diffuse + specular` that one light adds to `rgb` in
`rayTrace` (main.cpp:201-211). -/
def lightTerm (M : CMath K) (closestObject : SceneObject K) (minHitData : HitData K)
    (V N : Vector3 K) (l : Light K) : Vector3 K :=
  let ambient := elem_mult closestObject.ambient l.ambient
  let diffuse := elem_mult closestObject.diffuse l.diffuse * diffuseFactor M minHitData N l
  let specular := elem_mult closestObject.specular l.specular
    * specularFactor M closestObject minHitData V N l
  ambient + diffuse + specular

/-- The light loop of `rayTrace`: `rgb` is set to zero and every light adds its
term (main.cpp:196-212). -/
def localColor (M : CMath K) (closestObject : SceneObject K) (minHitData : HitData K)
    (V N : Vector3 K) (lights : List (Light K)) : Vector3 K :=
  lights.foldl (fun rgb l => rgb + lightTerm M closestObject minHitData V N l) ⟨0, 0, 0⟩

/-- The reflection ray of `rayTrace` (main.cpp:223-225). -/
def reflectionRay (minHitData : HitData K) (V N : Vector3 K) : Ray K :=
  { dir := N * (dot_prod V N * 2) - V
    start := minHitData.intersection + minHitData.normal * (EPSILON : K) }

/-- The index `n1` of `rayTrace` (main.cpp:231). -/
def indexN1 (closestObject : SceneObject K) (minHitData : HitData K) : K :=
  if minHitData.isInside then closestObject.refractiveIndex else 1

/-- The index `n2` of `rayTrace` (main.cpp:232). -/
def indexN2 (closestObject : SceneObject K) (minHitData : HitData K) : K :=
  if minHitData.isInside then 1 else closestObject.refractiveIndex

/-- The value `cos_i` of `rayTrace` (main.cpp:235). -/
def cosI (minHitData : HitData K) (V : Vector3 K) : K :=
  dot_prod minHitData.normal V

/-- The value `sine_t_sqr` of `rayTrace` (main.cpp:233-236). -/
def sineTSqr (M : CMath K) (closestObject : SceneObject K) (minHitData : HitData K)
    (V : Vector3 K) : K :=
  let n1 := indexN1 closestObject minHitData
  let n2 := indexN2 closestObject minHitData
  let ratio := n1 / n2
  M.pow ratio 2 * (1 - M.pow (cosI minHitData V) 2)

/-- The refraction ray of `rayTrace` (main.cpp:245-250); the literal `1e-4` is
written as the quotient `1 / 10000`. -/
def refractionRay (M : CMath K) (closestObject : SceneObject K) (minHitData : HitData K)
    (V : Vector3 K) : Ray K :=
  let n1 := indexN1 closestObject minHitData
  let n2 := indexN2 closestObject minHitData
  let ratio := n1 / n2
  let cos_i := cosI minHitData V
  let sine_t_sqr := sineTSqr M closestObject minHitData V
  let transmissionV :=
    ((V * (-1 : K)) * ratio
      + minHitData.normal * (cos_i * ratio - M.sqrt (1 - sine_t_sqr))).normalize M
  { start := minHitData.intersection - minHitData.normal * (1 / 10000 : K)
    dir := transmissionV }

/-- The value `reflectance` of `rayTrace` (main.cpp:237, 255-258). -/
def reflectance (M : CMath K) (closestObject : SceneObject K) (minHitData : HitData K)
    (V : Vector3 K) : K :=
  let n1 := indexN1 closestObject minHitData
  let n2 := indexN2 closestObject minHitData
  let cos_i := cosI minHitData V
  let cos_t := M.sqrt (1 - sineTSqr M closestObject minHitData V)
  let R_perpendicular := M.pow ((n1 * cos_i - n2 * cos_t) / (n1 * cos_i + n2 * cos_t)) 2
  let R_parallel := M.pow ((n2 * cos_i - n1 * cos_t) / (n2 * cos_i + n1 * cos_t)) 2
  (R_perpendicular + R_parallel) / 2

/-- The glass term that `rayTrace` adds after both nested invocations
(main.cpp:258-264). -/
def glassTerm (M : CMath K) (closestObject : SceneObject K) (minHitData : HitData K)
    (V reflectionRGB refractionRGB : Vector3 K) : Vector3 K :=
  let reflectance := reflectance M closestObject minHitData V
  let transmittance := 1 - reflectance
  let I_r := reflectionRGB * reflectance
  let I_t := refractionRGB * transmittance
  elem_mult closestObject.diffuse (I_r + I_t)

/-- The procedure `rayTrace` (main.cpp:161-265).  The first argument is the
fuel; the argument `rgb` is the previous content of the output parameter; the
result is its final content. -/
def rayTrace (M : CMath K) : Nat → Ray K → Vector3 K → Scene K → Int → Option (Vector3 K)
  | 0, _, _, _, _ => none
  | fuel + 1, ray, _, scene, bounces =>
    match (scanObjects M ray scene.sceneObjects).closest with
    | none => some skyColor
    | some (minHitData, closestObject) =>
      let V := viewVector M ray minHitData
      let N := shadingNormal M minHitData
      let rgb := localColor M closestObject minHitData V N scene.lights
      if bounces = MAX_BOUNCES then some rgb
      else if closestObject.isGlass = false then some rgb
      else
        match rayTrace M fuel (reflectionRay minHitData V N) Vector3.zero scene (bounces + 1) with
        | none => none
        | some reflectionRGB =>
          if sineTSqr M closestObject minHitData V > 1 then
            some (rgb + elem_mult reflectionRGB closestObject.specular)
          else
            match rayTrace M fuel (refractionRay M closestObject minHitData V) Vector3.zero scene
                (bounces + 1) with
            | none => none
            | some refractionRGB =>
              some (rgb + glassTerm M closestObject minHitData V reflectionRGB refractionRGB)

/-- The procedure `rayTrace` (main.cpp:161-265) with a call-depth counter: the
control flow is that of `rayTrace`, and the result also lists the argument
`bounces` of every invocation performed, the outermost first. -/
def rayTraceLog (M : CMath K) : Nat → Ray K → Vector3 K → Scene K → Int →
    Option (Vector3 K × List Int)
  | 0, _, _, _, _ => none
  | fuel + 1, ray, _, scene, bounces =>
    match (scanObjects M ray scene.sceneObjects).closest with
    | none => some (skyColor, [bounces])
    | some (minHitData, closestObject) =>
      let V := viewVector M ray minHitData
      let N := shadingNormal M minHitData
      let rgb := localColor M closestObject minHitData V N scene.lights
      if bounces = MAX_BOUNCES then some (rgb, [bounces])
      else if closestObject.isGlass = false then some (rgb, [bounces])
      else
        match rayTraceLog M fuel (reflectionRay minHitData V N) Vector3.zero scene
            (bounces + 1) with
        | none => none
        | some (reflectionRGB, log1) =>
          if sineTSqr M closestObject minHitData V > 1 then
            some (rgb + elem_mult reflectionRGB closestObject.specular, bounces :: log1)
          else
            match rayTraceLog M fuel (refractionRay M closestObject minHitData V) Vector3.zero
                scene (bounces + 1) with
            | none => none
            | some (refractionRGB, log2) =>
              some (rgb + glassTerm M closestObject minHitData V reflectionRGB refractionRGB,
                bounces :: (log1 ++ log2))

end Tracer

/-! ## main.cpp: the frame driver -/

section Driver

variable {K : Type} [DoubleArith K]

/-- The index in `*pixelBuffer` of `pixel[k]` for the pixel `(i, j)`
(main.cpp:296-300).  The operands are non-negative values of type `int`. -/
def pixelIndex (windowWidth i j k : Nat) : Nat :=
  i * 3 + j * windowWidth * 3 + k

/-- The indices of `*pixelBuffer` that one pass of `performRayTracing` writes,
in the order of the writes (main.cpp:285-302). -/
def frameWrites (windowWidth windowHeight : Nat) : List Nat :=
  (List.range windowWidth).flatMap fun i =>
    (List.range windowHeight).flatMap fun j =>
      [pixelIndex windowWidth i j 0, pixelIndex windowWidth i j 1, pixelIndex windowWidth i j 2]

/-- The number of elements of the buffer that `framebuffer_size_callback`
allocates (main.cpp:309). -/
def bufferSize (width height : Nat) : Nat :=
  width * height * 3

end Driver

/-! ## The invariant of the object loop -/

section Invariant

variable {K : Type} [LinearOrderedField K]

/-- The invariant of the object loop of `rayTrace` after the objects `objs`:
`minDistance` is at most `DBL_MAX` and at most the distance of every hit at
`EPSILON` or more; while `closestObject` is null, `minDistance` is `DBL_MAX` and
every such hit is beyond it; otherwise `minHitData` is the hit of
`closestObject`, `minDistance` is its distance, and every such hit of a later
object is strictly farther. -/
def ScanInv (M : CMath K) (ray : Ray K) (objs : List (SceneObject K)) (st : ScanState K) :
    Prop :=
  st.minDistance ≤ M.DBL_MAX
    ∧ (∀ o ∈ objs, ∀ h : HitData K, o.intersect ray = some h → EPSILON ≤ h.distance →
        st.minDistance ≤ h.distance)
    ∧ (st.closest = none → st.minDistance = M.DBL_MAX
        ∧ ∀ o ∈ objs, ∀ h : HitData K, o.intersect ray = some h → EPSILON ≤ h.distance →
            M.DBL_MAX < h.distance)
    ∧ (∀ (hit : HitData K) (obj : SceneObject K), st.closest = some (hit, obj) →
        st.minDistance = hit.distance ∧ EPSILON ≤ hit.distance
          ∧ ∃ pre post : List (SceneObject K), objs = pre ++ obj :: post
              ∧ obj.intersect ray = some hit
              ∧ ∀ o ∈ post, ∀ h : HitData K, o.intersect ray = some h →
                  EPSILON ≤ h.distance → hit.distance < h.distance)

end Invariant

/-! ## Basic facts about the vector operations -/

section VecLemmas

variable {K : Type} [LinearOrderedField K]

@[simp] theorem Vector3.sub_eq_mk (v o : Vector3 K) :
    v - o = ⟨v.x_ - o.x_, v.y_ - o.y_, v.z_ - o.z_⟩ :=
  rfl

@[simp] theorem Vector3.add_eq_mk (v o : Vector3 K) :
    v + o = ⟨v.x_ + o.x_, v.y_ + o.y_, v.z_ + o.z_⟩ :=
  rfl

@[simp] theorem Vector3.mul_eq_mk (v : Vector3 K) (k : K) :
    v * k = ⟨k * v.x_, k * v.y_, k * v.z_⟩ :=
  rfl

/-- An exact `sqrt` is positive on the positive numbers. -/
theorem CMath.Exact.sqrt_pos {M : CMath K} (hM : M.Exact) {x : K} (hx : 0 < x) :
    0 < M.sqrt x := by
  have h1 := hM.sqrt_nonneg x hx.le
  have h2 := hM.sqrt_mul_self x hx.le
  rcases h1.lt_or_eq with h | h
  · exact h
  · rw [← h] at h2
    simp at h2
    exact absurd h2.symm hx.ne'

/-- The method `normalize` never divides by zero: the checked variant agrees
with the plain one. -/
theorem Vector3.normalizeChecked_eq (M : CMath K) (v : Vector3 K) :
    v.normalizeChecked M = some (v.normalize M) := by
  unfold Vector3.normalizeChecked Vector3.normalize
  by_cases h : v.length M = 0
  · simp [h]
  · simp [h, checkedDiv]

end VecLemmas

/-! ## Facts about `Sphere::intersect` -/

section SphereLemmas

variable {K : Type} [LinearOrderedField K]

/-- The squared distance from the centre to the point of the ray at parameter `t`. -/
theorem Sphere.lengthsqr_along_ray (s : Sphere K) (ray : Ray K) (t : K) :
    ((ray.start + ray.dir * t) - s.c_).lengthsqr
      = t * t * ray.dir.lengthsqr + 2 * t * dot_prod ray.dir (ray.start - s.c_)
        + (ray.start - s.c_).lengthsqr := by
  simp only [Vector3.lengthsqr, dot_prod, Vector3.sub_eq_mk, Vector3.add_eq_mk,
    Vector3.mul_eq_mk]
  ring

/-- With an exact library the discriminant is `b ^ 2 - (|o - c| ^ 2 - r ^ 2)`. -/
theorem Sphere.delta_eq {M : CMath K} (hM : M.Exact) (s : Sphere K) (ray : Ray K) :
    s.delta M ray
      = dot_prod ray.dir (ray.start - s.c_) * dot_prod ray.dir (ray.start - s.c_)
        - ((ray.start - s.c_).lengthsqr - s.r_ * s.r_) := by
  unfold Sphere.delta
  rw [hM.pow_two, hM.pow_two]

/-- The real square root and the real power function are exact. -/
theorem realMath_exact : realMath.Exact where
  sqrt_nonneg := fun x _ => Real.sqrt_nonneg x
  sqrt_mul_self := fun x hx => Real.mul_self_sqrt hx
  pow_two := fun x => by
    show x ^ (2 : ℝ) = x * x
    rw [Real.rpow_two]
    ring
  pow_half := fun x _ => by
    show x ^ (1 / 2 : ℝ) = Real.sqrt x
    rw [Real.sqrt_eq_rpow]

/-- The method `Sphere::intersect` is the record of the chosen parameter. -/
theorem Sphere.intersect_of_root (M : CMath K) (s : Sphere K) (ray : Ray K) (t : K)
    (ht : s.root M ray = some t) : s.intersect M ray = some (s.hitAt M ray t) := by
  unfold Sphere.intersect
  rw [ht]
  rfl

/-- The parameter chosen when the discriminant is positive, in terms of the
two roots `-b - sqrt delta` and `-b + sqrt delta`. -/
theorem Sphere.root_of_delta_pos {M : CMath K} (hM : M.Exact) (s : Sphere K) (ray : Ray K)
    (hpos : 0 < s.delta M ray) :
    s.root M ray =
      if -dot_prod ray.dir (ray.start - s.c_) - M.sqrt (s.delta M ray) < 0
          ∧ -dot_prod ray.dir (ray.start - s.c_) + M.sqrt (s.delta M ray) < 0 then none
      else if -dot_prod ray.dir (ray.start - s.c_) - M.sqrt (s.delta M ray) < 0 then
        some (-dot_prod ray.dir (ray.start - s.c_) + M.sqrt (s.delta M ray))
      else some (-dot_prod ray.dir (ray.start - s.c_) - M.sqrt (s.delta M ray)) := by
  unfold Sphere.root
  simp only [not_lt.mpr hpos.le, hpos.ne', if_false, hM.pow_half _ hpos.le]

/-- A point of the ray's line is on the sphere exactly when its parameter `t`
satisfies `(t + b) ^ 2 = delta`. -/
theorem Sphere.on_sphere_iff {M : CMath K} (hM : M.Exact) (s : Sphere K) (ray : Ray K)
    (hd : ray.dir.lengthsqr = 1) (t : K) :
    ((ray.start + ray.dir * t) - s.c_).lengthsqr = s.r_ * s.r_
      ↔ (t + dot_prod ray.dir (ray.start - s.c_)) * (t + dot_prod ray.dir (ray.start - s.c_))
          = s.delta M ray := by
  rw [Sphere.lengthsqr_along_ray, hd, Sphere.delta_eq hM]
  constructor
  · intro h
    linear_combination h
  · intro h
    linear_combination h

/-- Outside the case of a tangent line that touches the sphere behind the
origin of the ray (`delta = 0` and `d.(o - c) > 0`), `Sphere::intersect` chooses
no parameter exactly when the equation `|o + t * d - c|^2 = r^2` has no root
`t >= 0`, and otherwise chooses the least such root. -/
theorem Sphere.root_least {M : CMath K} (hM : M.Exact) (s : Sphere K) (ray : Ray K)
    (hd : ray.dir.lengthsqr = 1)
    (hnt : ¬ (s.delta M ray = 0 ∧ 0 < dot_prod ray.dir (ray.start - s.c_))) :
    (s.root M ray = none ↔
        ¬ ∃ t : K, 0 ≤ t ∧ ((ray.start + ray.dir * t) - s.c_).lengthsqr = s.r_ * s.r_)
      ∧ ∀ t0 : K, s.root M ray = some t0 →
          0 ≤ t0 ∧ ((ray.start + ray.dir * t0) - s.c_).lengthsqr = s.r_ * s.r_
            ∧ ∀ t : K, 0 ≤ t → ((ray.start + ray.dir * t) - s.c_).lengthsqr = s.r_ * s.r_
                → t0 ≤ t := by
  simp only [Sphere.on_sphere_iff hM s ray hd]
  rcases lt_trichotomy (s.delta M ray) 0 with hneg | hzero | hpos
  · have hroot : s.root M ray = none := by
      unfold Sphere.root
      simp only [hneg, if_true]
    rw [hroot]
    refine ⟨⟨fun _ => ?_, fun _ => rfl⟩, fun t0 h0 => Option.noConfusion h0⟩
    rintro ⟨t, _, ht⟩
    nlinarith [mul_self_nonneg (t + dot_prod ray.dir (ray.start - s.c_))]
  · have hroot : s.root M ray = some (-dot_prod ray.dir (ray.start - s.c_)) := by
      unfold Sphere.root
      simp only [hzero, lt_irrefl, if_true, if_false]
    have hb : dot_prod ray.dir (ray.start - s.c_) ≤ 0 := by
      by_contra hcon
      exact hnt ⟨hzero, not_le.mp hcon⟩
    rw [hroot, hzero]
    refine ⟨⟨fun h => Option.noConfusion h, fun h => ?_⟩, ?_⟩
    · exact absurd ⟨-dot_prod ray.dir (ray.start - s.c_), by linarith, by ring⟩ h
    · intro t0 h0
      simp only [Option.some.injEq] at h0
      subst h0
      refine ⟨by linarith, by ring, fun t _ ht => ?_⟩
      have := mul_self_eq_zero.1 ht
      linarith
  · have hs := hM.sqrt_pos hpos
    have hss := hM.sqrt_mul_self _ hpos.le
    have hcases : ∀ t : K, (t + dot_prod ray.dir (ray.start - s.c_))
        * (t + dot_prod ray.dir (ray.start - s.c_)) = s.delta M ray →
        t = -dot_prod ray.dir (ray.start - s.c_) + M.sqrt (s.delta M ray)
          ∨ t = -dot_prod ray.dir (ray.start - s.c_) - M.sqrt (s.delta M ray) := by
      intro t ht
      rw [← hss] at ht
      rcases mul_self_eq_mul_self_iff.1 ht with h | h
      · left
        linarith
      · right
        linarith
    rw [Sphere.root_of_delta_pos hM s ray hpos]
    by_cases h2 : -dot_prod ray.dir (ray.start - s.c_) - M.sqrt (s.delta M ray) < 0
    · by_cases h1 : -dot_prod ray.dir (ray.start - s.c_) + M.sqrt (s.delta M ray) < 0
      · rw [if_pos ⟨h2, h1⟩]
        refine ⟨⟨fun _ => ?_, fun _ => rfl⟩, fun t0 h0 => Option.noConfusion h0⟩
        rintro ⟨t, ht0, ht⟩
        rcases hcases t ht with h | h <;> linarith
      · rw [if_neg (fun h => h1 h.2), if_pos h2]
        refine ⟨⟨fun h => Option.noConfusion h, fun h => ?_⟩, ?_⟩
        · refine absurd ⟨_, not_lt.mp h1, ?_⟩ h
          linear_combination hss
        · intro t0 h0
          simp only [Option.some.injEq] at h0
          subst h0
          refine ⟨not_lt.mp h1, by linear_combination hss, fun t ht0 ht => ?_⟩
          rcases hcases t ht with h | h <;> linarith
    · rw [if_neg (fun h => h2 h.1), if_neg h2]
      refine ⟨⟨fun h => Option.noConfusion h, fun h => ?_⟩, ?_⟩
      · refine absurd ⟨_, not_lt.mp h2, ?_⟩ h
        linear_combination hss
      · intro t0 h0
        simp only [Option.some.injEq] at h0
        subst h0
        refine ⟨not_lt.mp h2, by linear_combination hss, fun t ht0 ht => ?_⟩
        rcases hcases t ht with h | h <;> linarith

/-- The parameter chosen for a ray that touches the unit sphere centred at
`(0, 1, 0)` in front of its origin `(-1, 0, 0)`. -/
theorem root_tangent_ahead :
    Sphere.root realMath ⟨⟨0, 1, 0⟩, 1⟩ ⟨⟨-1, 0, 0⟩, ⟨1, 0, 0⟩⟩ = some 1 := by
  unfold Sphere.root Sphere.delta
  simp only [realMath_exact.pow_two]
  norm_num [dot_prod, Vector3.lengthsqr]

/-- The parameter chosen for a ray that touches the unit sphere centred at
`(0, 1, 0)` behind its origin `(1, 0, 0)`. -/
theorem root_tangent_behind :
    Sphere.root realMath ⟨⟨0, 1, 0⟩, 1⟩ ⟨⟨1, 0, 0⟩, ⟨1, 0, 0⟩⟩ = some (-1) := by
  unfold Sphere.root Sphere.delta
  simp only [realMath_exact.pow_two]
  norm_num [dot_prod, Vector3.lengthsqr]

end SphereLemmas

/-! ## The claims about `Sphere::intersect` and `Vector3::normalize` -/

section SphereClaims

variable {K : Type} [LinearOrderedField K]

/-- C1, at the failing input: for the unit sphere centred at `(0, 1, 0)` and the
ray from `(1, 0, 0)` in the direction `(1, 0, 0)` the discriminant is zero and
`Sphere::intersect` reports a hit at distance `-1`, while the equation
`|o + t * d - c|^2 = r^2` has no root `t >= 0`. -/
theorem intersect_tangent_behind :
    Sphere.intersect realMath ⟨⟨0, 1, 0⟩, 1⟩ ⟨⟨1, 0, 0⟩, ⟨1, 0, 0⟩⟩
        = some { distance := -1, intersection := ⟨0, 0, 0⟩, normal := ⟨0, -1, 0⟩,
                 isInside := false }
      ∧ ¬ ∃ t : ℝ, 0 ≤ t ∧
          (((⟨1, 0, 0⟩ : Vector3 ℝ) + (⟨1, 0, 0⟩ : Vector3 ℝ) * t)
            - (⟨0, 1, 0⟩ : Vector3 ℝ)).lengthsqr = 1 * 1 := by
  constructor
  · rw [Sphere.intersect_of_root realMath _ _ _ root_tangent_behind]
    unfold Sphere.hitAt Vector3.normalize Vector3.length
    norm_num [dot_prod, realMath]
  · rintro ⟨t, ht0, ht⟩
    simp only [Vector3.lengthsqr, Vector3.sub_eq_mk, Vector3.add_eq_mk, Vector3.mul_eq_mk] at ht
    nlinarith

/-- C10: `Vector3::normalize` applied to a vector whose `length()` is exactly
zero leaves the three components unchanged and divides by nothing: the variant
in which a division by zero is a fault returns the vector itself. -/
theorem normalize_zero_length (M : CMath K) (v : Vector3 K) (hl : v.length M = 0) :
    v.normalizeChecked M = some v ∧ v.normalize M = v := by
  unfold Vector3.normalizeChecked Vector3.normalize
  simp only [hl, if_true, and_self]

/-- C10, at a concrete input: the zero vector over the real numbers. -/
theorem normalize_zero_length_witness :
    (⟨0, 0, 0⟩ : Vector3 ℝ).normalizeChecked realMath = some ⟨0, 0, 0⟩
      ∧ (⟨0, 0, 0⟩ : Vector3 ℝ).normalize realMath = ⟨0, 0, 0⟩ :=
  normalize_zero_length realMath ⟨0, 0, 0⟩ (by simp [Vector3.length, realMath])

end SphereClaims

/-! ## Facts about the object loop and the light loop of `rayTrace` -/

section TracerLemmas

variable {K : Type} [LinearOrderedField K]

/-- The counter of `rayTraceLog` does not change the colour: its first
component is the result of `rayTrace`. -/
theorem rayTraceLog_fst (M : CMath K) (scene : Scene K) (fuel : Nat) :
    ∀ (ray : Ray K) (rgb : Vector3 K) (bounces : Int),
      (rayTraceLog M fuel ray rgb scene bounces).map Prod.fst
        = rayTrace M fuel ray rgb scene bounces := by
  induction fuel with
  | zero => intro ray rgb bounces; rfl
  | succ fuel ih =>
    intro ray rgb bounces
    unfold rayTraceLog rayTrace
    cases hscan : (scanObjects M ray scene.sceneObjects).closest with
    | none => rfl
    | some p =>
      obtain ⟨minHitData, closestObject⟩ := p
      simp only
      by_cases hb : bounces = MAX_BOUNCES
      · simp only [hb, if_true, Option.map_some']
      · cases hg : closestObject.isGlass with
        | false => simp only [hb, if_true, if_false, Option.map_some']
        | true =>
          simp only [hb, if_false, Bool.true_eq_false]
          rw [← ih (reflectionRay minHitData (viewVector M ray minHitData)
            (shadingNormal M minHitData)) Vector3.zero (bounces + 1)]
          cases h1 : rayTraceLog M fuel (reflectionRay minHitData (viewVector M ray minHitData)
              (shadingNormal M minHitData)) Vector3.zero scene (bounces + 1) with
          | none => rfl
          | some q1 =>
            obtain ⟨reflectionRGB, log1⟩ := q1
            simp only [Option.map_some']
            by_cases ht : sineTSqr M closestObject minHitData (viewVector M ray minHitData) > 1
            · simp only [ht, if_true, Option.map_some']
            · simp only [ht, if_false]
              rw [← ih (refractionRay M closestObject minHitData (viewVector M ray minHitData))
                Vector3.zero (bounces + 1)]
              cases h2 : rayTraceLog M fuel (refractionRay M closestObject minHitData
                  (viewVector M ray minHitData)) Vector3.zero scene (bounces + 1) with
              | none => rfl
              | some q2 =>
                obtain ⟨refractionRGB, log2⟩ := q2
                rfl

/-- With `k + 1` units of fuel an invocation at `MAX_BOUNCES - k` returns, and
every invocation it performs has its argument `bounces` between that of the
outermost invocation and `MAX_BOUNCES`. -/
theorem rayTraceLog_within_budget (M : CMath K) (scene : Scene K) (k : Nat) :
    ∀ (ray : Ray K) (rgb : Vector3 K) (bounces : Int), bounces + k = MAX_BOUNCES →
      ∃ (c : Vector3 K) (log : List Int),
        rayTraceLog M (k + 1) ray rgb scene bounces = some (c, log)
          ∧ ∀ b ∈ log, bounces ≤ b ∧ b ≤ MAX_BOUNCES := by
  induction k with
  | zero =>
    intro ray rgb bounces hk
    have hb : bounces = MAX_BOUNCES := by simpa using hk
    rw [rayTraceLog]
    cases hscan : (scanObjects M ray scene.sceneObjects).closest with
    | none =>
      refine ⟨_, _, rfl, ?_⟩
      intro b hmem
      rw [List.mem_singleton] at hmem
      omega
    | some p =>
      obtain ⟨minHitData, closestObject⟩ := p
      simp only [hb, if_true]
      refine ⟨_, _, rfl, ?_⟩
      intro b hmem
      rw [List.mem_singleton] at hmem
      omega
  | succ k ih =>
    intro ray rgb bounces hk
    have hk1 : bounces + 1 + (k : Int) = MAX_BOUNCES := by
      push_cast at hk
      omega
    have hb : ¬ bounces = MAX_BOUNCES := by
      push_cast at hk
      omega
    rw [rayTraceLog]
    cases hscan : (scanObjects M ray scene.sceneObjects).closest with
    | none =>
      refine ⟨_, _, rfl, ?_⟩
      intro b hmem
      rw [List.mem_singleton] at hmem
      omega
    | some p =>
      obtain ⟨minHitData, closestObject⟩ := p
      cases hg : closestObject.isGlass with
      | false =>
        simp only [hb, hg, if_true, if_false]
        refine ⟨_, _, rfl, ?_⟩
        intro b hmem
        rw [List.mem_singleton] at hmem
        omega
      | true =>
        simp only [hb, hg, if_false, Bool.true_eq_false]
        obtain ⟨c1, log1, h1, hlog1⟩ := ih (reflectionRay minHitData
          (viewVector M ray minHitData) (shadingNormal M minHitData)) Vector3.zero
          (bounces + 1) hk1
        rw [h1]
        simp only
        by_cases ht : sineTSqr M closestObject minHitData (viewVector M ray minHitData) > 1
        · simp only [ht, if_true]
          refine ⟨_, _, rfl, ?_⟩
          intro b hmem
          rcases List.mem_cons.1 hmem with hb0 | hb1
          · omega
          · have := hlog1 b hb1
            omega
        · simp only [ht, if_false]
          obtain ⟨c2, log2, h2, hlog2⟩ := ih (refractionRay M closestObject minHitData
            (viewVector M ray minHitData)) Vector3.zero (bounces + 1) hk1
          rw [h2]
          refine ⟨_, _, rfl, ?_⟩
          intro b hmem
          rcases List.mem_cons.1 hmem with hb0 | hb1
          · omega
          · rcases List.mem_append.1 hb1 with hm | hm
            · have := hlog1 b hm
              omega
            · have := hlog2 b hm
              omega

end TracerLemmas

/-! ## Facts about binary64 and the light loop -/

section Binary64Lemmas

/-- In binary64 the quotients that stand for the decimal literals of the source
have the values of the literals. -/
theorem literals_binary64 :
    (EPSILON : F64) = 1e-5 ∧ (skyColor : Vector3 F64) = ⟨0.7, 0.7, 1⟩
      ∧ (1 / 10000 : F64) = 1e-4 ∧ (1 / 2 : F64) = 0.5 := by
  decide!

/-- In binary64 zero times a finite value is zero. -/
theorem F64.zero_mul_of_isFinite (x : F64) (hx : x.isFinite = true) : (0 : F64) * x = 0 := by
  cases x with
  | fin q =>
    show F64.mul (.fin 0) (.fin q) = .fin 0
    simp [F64.mul, F64.round]
  | pinf => exact absurd hx (by decide)
  | ninf => exact absurd hx (by decide)
  | nan => exact absurd hx (by decide)

/-- In binary64 a finite value times zero is zero. -/
theorem F64.mul_zero_of_isFinite (x : F64) (hx : x.isFinite = true) : x * (0 : F64) = 0 := by
  cases x with
  | fin q =>
    show F64.mul (.fin q) (.fin 0) = .fin 0
    simp [F64.mul, F64.round]
  | pinf => exact absurd hx (by decide)
  | ninf => exact absurd hx (by decide)
  | nan => exact absurd hx (by decide)

/-- In binary64 zero plus zero is zero. -/
theorem F64.zero_add_zero : (0 : F64) + 0 = 0 := by
  show F64.add (.fin 0) (.fin 0) = .fin 0
  simp [F64.add, F64.round]

/-- In binary64 the term of one light is zero for a material with zero
coefficients when the colours of the light and the two factors are finite. -/
theorem lightTerm_of_unlit_finite (M : CMath F64) (obj : SceneObject F64) (hit : HitData F64)
    (V N : Vector3 F64) (l : Light F64) (ha : obj.ambient = ⟨0, 0, 0⟩)
    (hd : obj.diffuse = ⟨0, 0, 0⟩) (hs : obj.specular = ⟨0, 0, 0⟩)
    (hla : l.ambient.isFinite = true) (hld : l.diffuse.isFinite = true)
    (hls : l.specular.isFinite = true)
    (hdf : (diffuseFactor M hit N l).isFinite = true)
    (hsf : (specularFactor M obj hit V N l).isFinite = true) :
    lightTerm M obj hit V N l = ⟨0, 0, 0⟩ := by
  simp only [Vector3.isFinite, Bool.and_eq_true] at hla hld hls
  have e1 : ∀ (a b : Vector3 F64), a + b = ⟨a.x_ + b.x_, a.y_ + b.y_, a.z_ + b.z_⟩ :=
    fun _ _ => rfl
  have e2 : ∀ (a : Vector3 F64) (k : F64), a * k = ⟨k * a.x_, k * a.y_, k * a.z_⟩ :=
    fun _ _ => rfl
  simp only [lightTerm, ha, hd, hs, elem_mult, e1, e2,
    F64.zero_mul_of_isFinite _ hla.1.1, F64.zero_mul_of_isFinite _ hla.1.2,
    F64.zero_mul_of_isFinite _ hla.2, F64.zero_mul_of_isFinite _ hld.1.1,
    F64.zero_mul_of_isFinite _ hld.1.2, F64.zero_mul_of_isFinite _ hld.2,
    F64.zero_mul_of_isFinite _ hls.1.1, F64.zero_mul_of_isFinite _ hls.1.2,
    F64.zero_mul_of_isFinite _ hls.2, F64.mul_zero_of_isFinite _ hdf,
    F64.mul_zero_of_isFinite _ hsf, F64.zero_add_zero]

/-- In binary64 the light loop yields zero for a material with zero coefficients
when the colours of the lights and the factors are finite. -/
theorem localColor_of_unlit_finite (M : CMath F64) (obj : SceneObject F64) (hit : HitData F64)
    (V N : Vector3 F64) (lights : List (Light F64)) (ha : obj.ambient = ⟨0, 0, 0⟩)
    (hd : obj.diffuse = ⟨0, 0, 0⟩) (hs : obj.specular = ⟨0, 0, 0⟩)
    (hfin : ∀ l ∈ lights, l.ambient.isFinite = true ∧ l.diffuse.isFinite = true
      ∧ l.specular.isFinite = true ∧ (diffuseFactor M hit N l).isFinite = true
      ∧ (specularFactor M obj hit V N l).isFinite = true) :
    localColor M obj hit V N lights = ⟨0, 0, 0⟩ := by
  unfold localColor
  induction lights with
  | nil => rfl
  | cons l rest ih =>
    obtain ⟨h1, h2, h3, h4, h5⟩ := hfin l (List.mem_cons_self _ _)
    rw [List.foldl_cons, lightTerm_of_unlit_finite M obj hit V N l ha hd hs h1 h2 h3 h4 h5]
    have e : (⟨0, 0, 0⟩ : Vector3 F64) + ⟨0, 0, 0⟩ = ⟨0, 0, 0⟩ := by
      show (⟨(0 : F64) + 0, (0 : F64) + 0, (0 : F64) + 0⟩ : Vector3 F64) = ⟨0, 0, 0⟩
      rw [F64.zero_add_zero]
    rw [e]
    exact ih fun l hl => hfin l (List.mem_cons_of_mem _ hl)

end Binary64Lemmas

/-! ## The claims about `rayTrace` and `Scene::setActiveCamera` -/

section TracerClaims

variable {K : Type} [LinearOrderedField K]

/-- C7, refuted in binary64: a non-glass unit sphere with zero ambient, diffuse
and specular coefficients and the shininess `-1`, one light at `(0, 0, 5)` and
the ray from `(0, 0, -3)` in the direction `(0, 0, 1)`.  The object loop selects
the hit at distance 2; for the light `max(0.0, dot_prod(R, V))` is 0, `pow(0, -1)`
is `+inf` and `0 * inf` is NaN, so `rayTrace` returns `(NaN, NaN, NaN)` and not
`(0, 0, 0)`. -/
theorem rayTrace_unlit_nan :
    ((scanObjects f64Math ⟨⟨0, 0, -3⟩, ⟨0, 0, 1⟩⟩
        [Sphere.toSceneObject f64Math ⟨⟨0, 0, 0⟩, 1⟩ ⟨0, 0, 0⟩ ⟨0, 0, 0⟩ ⟨0, 0, 0⟩ (-1)
          false 1]).closest.map Prod.fst)
        = some { distance := 2, intersection := ⟨0, 0, -1⟩, normal := ⟨0, 0, -1⟩,
                 isInside := false }
      ∧ specularFactor f64Math
          (Sphere.toSceneObject f64Math ⟨⟨0, 0, 0⟩, 1⟩ ⟨0, 0, 0⟩ ⟨0, 0, 0⟩ ⟨0, 0, 0⟩ (-1)
            false 1)
          { distance := 2, intersection := ⟨0, 0, -1⟩, normal := ⟨0, 0, -1⟩, isInside := false }
          (viewVector f64Math ⟨⟨0, 0, -3⟩, ⟨0, 0, 1⟩⟩
            { distance := 2, intersection := ⟨0, 0, -1⟩, normal := ⟨0, 0, -1⟩,
              isInside := false })
          (shadingNormal f64Math
            { distance := 2, intersection := ⟨0, 0, -1⟩, normal := ⟨0, 0, -1⟩,
              isInside := false })
          ⟨⟨0, 0, 5⟩, ⟨1, 1, 1⟩, ⟨1, 1, 1⟩, ⟨1, 1, 1⟩⟩
        = F64.pinf
      ∧ rayTrace f64Math 1 ⟨⟨0, 0, -3⟩, ⟨0, 0, 1⟩⟩ ⟨0, 0, 0⟩
          { sceneObjects := [Sphere.toSceneObject f64Math ⟨⟨0, 0, 0⟩, 1⟩ ⟨0, 0, 0⟩ ⟨0, 0, 0⟩
              ⟨0, 0, 0⟩ (-1) false 1],
            lights := [⟨⟨0, 0, 5⟩, ⟨1, 1, 1⟩, ⟨1, 1, 1⟩, ⟨1, 1, 1⟩⟩],
            cameras := [],
            activeCamera := 0 } 0
        = some ⟨F64.nan, F64.nan, F64.nan⟩ := by
  decide!

/-- C7, amended for binary64: if the object loop of `rayTrace` selects a hit on
a non-glass object whose ambient, diffuse and specular coefficients are all
`(0, 0, 0)`, and for every light of the scene the colours of the light and the
two factors `max(0.0, dot_prod(L, N))` and
`pow(max(0.0, dot_prod(R, V)), shininess)` are finite (neither infinite nor
NaN), then `rayTrace` returns exactly `(0, 0, 0)`, for every ray, every bounce
depth and every previous colour, whatever `sqrt` and `pow` compute. -/
theorem rayTrace_unlit_finite (M : CMath F64) (fuel : Nat) (ray : Ray F64) (rgb : Vector3 F64)
    (scene : Scene F64) (bounces : Int) (hit : HitData F64) (obj : SceneObject F64)
    (hscan : (scanObjects M ray scene.sceneObjects).closest = some (hit, obj))
    (hglass : obj.isGlass = false) (ha : obj.ambient = ⟨0, 0, 0⟩)
    (hd : obj.diffuse = ⟨0, 0, 0⟩) (hs : obj.specular = ⟨0, 0, 0⟩)
    (hfin : ∀ l ∈ scene.lights, l.ambient.isFinite = true ∧ l.diffuse.isFinite = true
      ∧ l.specular.isFinite = true
      ∧ (diffuseFactor M hit (shadingNormal M hit) l).isFinite = true
      ∧ (specularFactor M obj hit (viewVector M ray hit) (shadingNormal M hit) l).isFinite
          = true) :
    rayTrace M (fuel + 1) ray rgb scene bounces = some ⟨0, 0, 0⟩ := by
  rw [rayTrace]
  simp only [hscan, hglass, if_true, ite_self,
    localColor_of_unlit_finite M obj hit _ _ _ ha hd hs hfin]

/-- C7 amended, at a concrete input in binary64: the scene of the refutation with
the shininess 10 and a non-zero previous colour; the specular factor is
`pow(0, 10) = 0`. -/
theorem rayTrace_unlit_finite_witness :
    rayTrace f64Math 1 ⟨⟨0, 0, -3⟩, ⟨0, 0, 1⟩⟩ ⟨5, 5, 5⟩
      { sceneObjects := [Sphere.toSceneObject f64Math ⟨⟨0, 0, 0⟩, 1⟩ ⟨0, 0, 0⟩ ⟨0, 0, 0⟩
          ⟨0, 0, 0⟩ 10 false 1],
        lights := [⟨⟨0, 0, 5⟩, ⟨1, 1, 1⟩, ⟨1, 1, 1⟩, ⟨1, 1, 1⟩⟩],
        cameras := [],
        activeCamera := 0 } 0
      = some ⟨0, 0, 0⟩ :=
  rayTrace_unlit_finite f64Math 0 _ _ _ _
    { distance := 2, intersection := ⟨0, 0, -1⟩, normal := ⟨0, 0, -1⟩, isInside := false }
    (Sphere.toSceneObject f64Math ⟨⟨0, 0, 0⟩, 1⟩ ⟨0, 0, 0⟩ ⟨0, 0, 0⟩ ⟨0, 0, 0⟩ 10 false 1)
    (by
      have hI : Sphere.intersect f64Math ⟨⟨0, 0, 0⟩, 1⟩ ⟨⟨0, 0, -3⟩, ⟨0, 0, 1⟩⟩
          = some { distance := 2, intersection := ⟨0, 0, -1⟩, normal := ⟨0, 0, -1⟩,
                   isInside := false } := by decide!
      have h1 : ¬ ((2 : F64) < EPSILON) := by decide!
      have h2 : ¬ (f64Math.DBL_MAX < (2 : F64)) := by decide!
      simp only [scanObjects, List.foldl, scanStep, Sphere.toSceneObject, hI, h1, h2, if_false])
    rfl rfl rfl rfl (by decide!)

/-- C8: for every scene and every ray, `rayTrace` started at bounce depth 0
returns with `MAX_BOUNCES + 1 = 3` units of fuel, that is with invocations
nested at most 3 deep, and every invocation it performs has a bounce depth
between 0 and `MAX_BOUNCES`. -/
theorem rayTrace_depth_bounded (M : CMath K) (ray : Ray K) (rgb : Vector3 K)
    (scene : Scene K) :
    ∃ (c : Vector3 K) (log : List Int),
      rayTraceLog M (MAX_BOUNCES + 1).toNat ray rgb scene 0 = some (c, log)
        ∧ rayTrace M (MAX_BOUNCES + 1).toNat ray rgb scene 0 = some c
        ∧ ∀ b ∈ log, 0 ≤ b ∧ b ≤ MAX_BOUNCES := by
  have hfuel : (MAX_BOUNCES + 1).toNat = 2 + 1 := rfl
  obtain ⟨c, log, hlog, hb⟩ := rayTraceLog_within_budget M scene 2 ray rgb 0 rfl
  refine ⟨c, log, ?_, ?_, hb⟩
  · rw [hfuel, hlog]
  · rw [hfuel, ← rayTraceLog_fst, hlog]
    rfl

end TracerClaims

section SceneClaims

variable {K : Type}

/-- C9: for an `int` index `i` and a list of cameras of a length that a
`std::vector` can have, `Scene::setActiveCamera(i)` leaves the whole scene
unchanged when `i < 0` or `i >= cameras.size()`, and otherwise sets
`activeCamera` to `i` and changes nothing else. -/
theorem setActiveCamera_spec (s : Scene K) (i : Int) (hlo : -2 ^ 31 ≤ i) (hhi : i < 2 ^ 31)
    (hsize : (s.cameras.length : Int) < 2 ^ 63) :
    ((i < 0 ∨ (s.cameras.length : Int) ≤ i) → s.setActiveCamera i = s)
      ∧ ((0 ≤ i ∧ i < (s.cameras.length : Int)) →
          s.setActiveCamera i = { s with activeCamera := i }) := by
  have hpow : (2 : Int) ^ SIZE_WIDTH = 18446744073709551616 := by norm_num [SIZE_WIDTH]
  unfold Scene.setActiveCamera
  rw [hpow]
  constructor
  · intro h
    rw [if_neg]
    omega
  · intro h
    rw [if_pos]
    omega

/-- C9, at a concrete input: the index `-1` for a scene with one camera. -/
theorem setActiveCamera_spec_witness :
    Scene.setActiveCamera
        ({ sceneObjects := [], lights := [],
           cameras := [⟨⟨0, 0, -500⟩, ⟨0, 1, 0⟩, ⟨0, 0, 0⟩, 500⟩],
           activeCamera := 0 } : Scene ℚ) (-1)
      = { sceneObjects := [], lights := [],
          cameras := [⟨⟨0, 0, -500⟩, ⟨0, 1, 0⟩, ⟨0, 0, 0⟩, 500⟩],
          activeCamera := 0 } :=
  (setActiveCamera_spec _ (-1) (by norm_num) (by norm_num) (by norm_num)).1
    (Or.inl (by norm_num))

end SceneClaims

/-! ## Facts about `Vector3::normalize` -/

section NormalizeLemmas

variable {K : Type} [LinearOrderedField K]

end NormalizeLemmas

/-! ## The claims about the vector operations -/

section VectorClaims

variable {K : Type} [LinearOrderedField K]

end VectorClaims

/-! ## Facts about the pixel loop of `performRayTracing` -/

section DriverLemmas

/-- Every index written for a pixel of the raster is inside the buffer. -/
theorem pixelIndex_lt (W H i j k : Nat) (hi : i < W) (hj : j < H) (hk : k < 3) :
    pixelIndex W i j k < bufferSize W H := by
  unfold pixelIndex bufferSize
  have h1 : (j + 1) * W ≤ H * W := Nat.mul_le_mul_right W hj
  rw [Nat.succ_mul] at h1
  rw [Nat.mul_comm W H]
  omega

/-- Different pixels and components are written at different indices. -/
theorem pixelIndex_inj (W i j k i' j' k' : Nat) (hi : i < W) (hi' : i' < W) (hk : k < 3)
    (hk' : k' < 3) (h : pixelIndex W i j k = pixelIndex W i' j' k') :
    i = i' ∧ j = j' ∧ k = k' := by
  unfold pixelIndex at h
  have hj : j = j' := by
    rcases Nat.lt_trichotomy j j' with hlt | heq | hgt
    · have h1 : (j + 1) * W ≤ j' * W := Nat.mul_le_mul_right W hlt
      rw [Nat.succ_mul] at h1
      omega
    · exact heq
    · have h1 : (j' + 1) * W ≤ j * W := Nat.mul_le_mul_right W hgt
      rw [Nat.succ_mul] at h1
      omega
  subst hj
  omega

/-- Every element of the buffer is the index of a component of a pixel. -/
theorem pixelIndex_surj (W H x : Nat) (hx : x < bufferSize W H) :
    ∃ i j k, i < W ∧ j < H ∧ k < 3 ∧ pixelIndex W i j k = x := by
  unfold bufferSize at hx
  have hW : 0 < W := by
    rcases Nat.eq_zero_or_pos W with h0 | hpos
    · rw [h0] at hx
      simp at hx
    · exact hpos
  have h3 : x / 3 < W * H := by
    rw [Nat.div_lt_iff_lt_mul (by norm_num)]
    exact hx
  refine ⟨(x / 3) % W, x / 3 / W, x % 3, Nat.mod_lt _ hW, ?_, Nat.mod_lt _ (by norm_num), ?_⟩
  · rw [Nat.div_lt_iff_lt_mul hW, Nat.mul_comm H W]
    exact h3
  · unfold pixelIndex
    have hdm := Nat.mod_add_div (x / 3) W
    have hdm3 := Nat.mod_add_div x 3
    rw [Nat.mul_comm W (x / 3 / W)] at hdm
    omega

/-- The indices written in one pass are those of the components of the pixels. -/
theorem mem_frameWrites (W H x : Nat) :
    x ∈ frameWrites W H ↔ ∃ i j k, i < W ∧ j < H ∧ k < 3 ∧ pixelIndex W i j k = x := by
  unfold frameWrites
  simp only [List.mem_flatMap, List.mem_range, List.mem_cons, List.mem_singleton,
    List.not_mem_nil, or_false]
  constructor
  · rintro ⟨i, hi, j, hj, h | h | h⟩
    · exact ⟨i, j, 0, hi, hj, by norm_num, h.symm⟩
    · exact ⟨i, j, 1, hi, hj, by norm_num, h.symm⟩
    · exact ⟨i, j, 2, hi, hj, by norm_num, h.symm⟩
  · rintro ⟨i, j, k, hi, hj, hk, h⟩
    refine ⟨i, hi, j, hj, ?_⟩
    have hk3 : k = 0 ∨ k = 1 ∨ k = 2 := by omega
    rcases hk3 with h0 | h1 | h2
    · left
      rw [← h, h0]
    · right
      left
      rw [← h, h1]
    · right
      right
      rw [← h, h2]

/-- No index is written twice in one pass. -/
theorem nodup_frameWrites (W H : Nat) : (frameWrites W H).Nodup := by
  unfold frameWrites
  rw [List.nodup_flatMap]
  constructor
  · intro i hi
    rw [List.mem_range] at hi
    rw [List.nodup_flatMap]
    constructor
    · intro j _
      simp only [List.nodup_cons, List.mem_cons, List.mem_singleton, List.not_mem_nil,
        List.nodup_nil, and_true, not_false_eq_true, not_or, pixelIndex]
      omega
    · refine (List.pairwise_lt_range H).imp ?_
      intro j j' hlt
      rw [Function.onFun, List.disjoint_left]
      intro x h1 h2
      simp only [List.mem_cons, List.mem_singleton, List.not_mem_nil, or_false] at h1 h2
      have key : ∀ k k' : Nat, k < 3 → k' < 3 →
          x = pixelIndex W i j k → x = pixelIndex W i j' k' → False := by
        intro k k' hk hk' e1 e2
        have := (pixelIndex_inj W i j k i j' k' hi hi hk hk' (e1.symm.trans e2)).2.1
        omega
      rcases h1 with e1 | e1 | e1 <;> rcases h2 with e2 | e2 | e2 <;>
        exact key _ _ (by norm_num) (by norm_num) e1 e2
  · refine (List.pairwise_lt_range W).imp_of_mem ?_
    intro i i' hi hi' hlt
    rw [List.mem_range] at hi hi'
    rw [Function.onFun, List.disjoint_left]
    intro x h1 h2
    simp only [List.mem_flatMap, List.mem_range, List.mem_cons, List.mem_singleton,
      List.not_mem_nil, or_false] at h1 h2
    obtain ⟨j, _, h1⟩ := h1
    obtain ⟨j', _, h2⟩ := h2
    have key : ∀ k k' : Nat, k < 3 → k' < 3 →
        x = pixelIndex W i j k → x = pixelIndex W i' j' k' → False := by
      intro k k' hk hk' e1 e2
      have := (pixelIndex_inj W i j k i' j' k' hi hi' hk hk' (e1.symm.trans e2)).1
      omega
    rcases h1 with e1 | e1 | e1 <;> rcases h2 with e2 | e2 | e2 <;>
      exact key _ _ (by norm_num) (by norm_num) e1 e2

/-- One pass writes each element of the buffer exactly once and nothing else:
the list of written indices is a permutation of `0, ..., bufferSize - 1`. -/
theorem frameWrites_perm_range (W H : Nat) :
    (frameWrites W H).Perm (List.range (bufferSize W H)) := by
  rw [List.perm_ext_iff_of_nodup (nodup_frameWrites W H) (List.nodup_range _)]
  intro x
  rw [mem_frameWrites, List.mem_range]
  constructor
  · rintro ⟨i, j, k, hi, hj, hk, rfl⟩
    exact pixelIndex_lt W H i j k hi hj hk
  · exact pixelIndex_surj W H x

end DriverLemmas

/-! ## The claim about the pixel buffer -/

section DriverClaims

/-- C13: for a raster of `W > 0` by `H > 0` pixels with `W * H * 3`
representable as an `int`, the offsets `3 * (i + j * W) + k` that
`performRayTracing` uses for `0 <= i < W`, `0 <= j < H` and `k` in `{0, 1, 2}`
lie in `[0, W * H * 3)` (so the `int` arithmetic does not overflow) and are
pairwise distinct, and one pass writes every element of the buffer of
`W * H * 3` floats exactly once and nothing outside it. -/
theorem frame_pass_writes_buffer (W H : Nat) (hW : 0 < W) (hH : 0 < H)
    (hint : W * H * 3 < 2 ^ 31) :
    (∀ i j k : Nat, i < W → j < H → k < 3 →
        pixelIndex W i j k = 3 * (i + j * W) + k
          ∧ pixelIndex W i j k < W * H * 3 ∧ pixelIndex W i j k < 2 ^ 31)
      ∧ (∀ i j k i' j' k' : Nat, i < W → j < H → k < 3 → i' < W → j' < H → k' < 3 →
          pixelIndex W i j k = pixelIndex W i' j' k' → i = i' ∧ j = j' ∧ k = k')
      ∧ (frameWrites W H).Perm (List.range (W * H * 3))
      ∧ (frameWrites W H).length = W * H * 3
      ∧ frameWrites W H ≠ [] := by
  have hperm := frameWrites_perm_range W H
  have hlen : (frameWrites W H).length = W * H * 3 := by
    rw [hperm.length_eq, List.length_range]
    rfl
  refine ⟨fun i j k hi hj hk => ⟨?_, ?_, ?_⟩, ?_, hperm, hlen, ?_⟩
  · unfold pixelIndex
    ring
  · exact pixelIndex_lt W H i j k hi hj hk
  · exact lt_trans (pixelIndex_lt W H i j k hi hj hk) hint
  · intro i j k i' j' k' hi _ hk hi' _ hk' h
    exact pixelIndex_inj W i j k i' j' k' hi hi' hk hk' h
  · intro hnil
    rw [hnil, List.length_nil] at hlen
    have := Nat.mul_pos (Nat.mul_pos hW hH) (by norm_num : 0 < 3)
    omega

/-- C13, at a concrete input: a raster of 2 by 2 pixels. -/
theorem frame_pass_writes_buffer_witness :
    (frameWrites 2 2).Perm (List.range (2 * 2 * 3)) :=
  (frame_pass_writes_buffer 2 2 (by norm_num) (by norm_num) (by norm_num)).2.2.1

end DriverClaims

/-! ## Facts about the camera basis of `performRayTracing` -/

section CameraLemmas

variable {K : Type} [LinearOrderedField K]

end CameraLemmas

/-! ## The claim about the camera basis -/

section CameraClaims

variable {K : Type} [LinearOrderedField K]

end CameraClaims

/-! ## The invariant of the object loop of `rayTrace` -/

section ScanLemmas

variable {K : Type} [LinearOrderedField K]

/-- The loop over a list extended by one object. -/
theorem scanObjects_append_singleton (M : CMath K) (ray : Ray K) (objs : List (SceneObject K))
    (o : SceneObject K) :
    scanObjects M ray (objs ++ [o]) = scanStep ray (scanObjects M ray objs) o := by
  unfold scanObjects
  rw [List.foldl_append]
  rfl

/-- The invariant is kept by an iteration that leaves the variables unchanged:
the object has no hit at `EPSILON` or more, or its hit is beyond `minDistance`. -/
theorem ScanInv.keep {M : CMath K} {ray : Ray K} {objs : List (SceneObject K)}
    {st : ScanState K} (hinv : ScanInv M ray objs st) (o : SceneObject K)
    (hrej : ∀ h : HitData K, o.intersect ray = some h → EPSILON ≤ h.distance →
      st.minDistance < h.distance) :
    ScanInv M ray (objs ++ [o]) st := by
  obtain ⟨h0, h1, h2, h3⟩ := hinv
  refine ⟨h0, ?_, ?_, ?_⟩
  · intro o' ho' h hh hv
    rcases List.mem_append.1 ho' with hm | hm
    · exact h1 o' hm h hh hv
    · rw [List.mem_singleton] at hm
      subst hm
      exact (hrej h hh hv).le
  · intro hnone
    obtain ⟨hmax, hall⟩ := h2 hnone
    refine ⟨hmax, ?_⟩
    intro o' ho' h hh hv
    rcases List.mem_append.1 ho' with hm | hm
    · exact hall o' hm h hh hv
    · rw [List.mem_singleton] at hm
      subst hm
      rw [← hmax]
      exact hrej h hh hv
  · intro hit obj hsome
    obtain ⟨hmin, heps, pre, post, hsplit, hobj, hpost⟩ := h3 hit obj hsome
    refine ⟨hmin, heps, pre, post ++ [o], ?_, hobj, ?_⟩
    · rw [hsplit]
      simp only [List.append_assoc, List.cons_append]
    · intro o' ho' h hh hv
      rcases List.mem_append.1 ho' with hm | hm
      · exact hpost o' hm h hh hv
      · rw [List.mem_singleton] at hm
        subst hm
        rw [← hmin]
        exact hrej h hh hv

/-- The invariant is kept by an iteration that records the hit of the object. -/
theorem ScanInv.accept {M : CMath K} {ray : Ray K} {objs : List (SceneObject K)}
    {st : ScanState K} (hinv : ScanInv M ray objs st) (o : SceneObject K) (hit : HitData K)
    (hhit : o.intersect ray = some hit) (heps : EPSILON ≤ hit.distance)
    (hle : hit.distance ≤ st.minDistance) :
    ScanInv M ray (objs ++ [o]) { minDistance := hit.distance, closest := some (hit, o) } := by
  obtain ⟨h0, h1, _, _⟩ := hinv
  refine ⟨le_trans hle h0, ?_, ?_, ?_⟩
  · intro o' ho' h hh hv
    rcases List.mem_append.1 ho' with hm | hm
    · exact le_trans hle (h1 o' hm h hh hv)
    · rw [List.mem_singleton] at hm
      subst hm
      rw [hhit, Option.some.injEq] at hh
      rw [hh]
  · intro hnone
    exact Option.noConfusion hnone
  · intro hit' obj' hsome
    simp only [Option.some.injEq, Prod.mk.injEq] at hsome
    obtain ⟨e1, e2⟩ := hsome
    subst e1
    subst e2
    refine ⟨rfl, heps, objs, [], rfl, hhit, ?_⟩
    intro o' ho'
    exact absurd ho' (List.not_mem_nil _)

/-- The invariant holds after the loop over any list of objects. -/
theorem scanObjects_inv (M : CMath K) (ray : Ray K) (objs : List (SceneObject K)) :
    ScanInv M ray objs (scanObjects M ray objs) := by
  induction objs using List.reverseRecOn with
  | nil =>
    refine ⟨le_refl _, ?_, ?_, ?_⟩
    · intro o ho
      exact absurd ho (List.not_mem_nil _)
    · intro _
      refine ⟨rfl, ?_⟩
      intro o ho
      exact absurd ho (List.not_mem_nil _)
    · intro hit obj hsome
      exact Option.noConfusion hsome
  | append_singleton objs o ih =>
    rw [scanObjects_append_singleton]
    unfold scanStep
    cases ho : o.intersect ray with
    | none =>
      exact ih.keep o fun h hh _ => by
        rw [ho] at hh
        exact Option.noConfusion hh
    | some hit =>
      simp only
      by_cases h1 : hit.distance < EPSILON
      · rw [if_pos h1]
        exact ih.keep o fun h hh hv => by
          rw [ho, Option.some.injEq] at hh
          rw [← hh] at hv
          exact absurd h1 (not_lt.mpr hv)
      · rw [if_neg h1]
        by_cases h2 : hit.distance > (scanObjects M ray objs).minDistance
        · rw [if_pos h2]
          exact ih.keep o fun h hh _ => by
            rw [ho, Option.some.injEq] at hh
            rw [← hh]
            exact h2
        · rw [if_neg h2]
          exact ih.accept o hit ho (not_lt.mp h1) (not_lt.mp h2)

/-- An iteration records the hit of the object when its distance is at least
`EPSILON` and at most `minDistance`. -/
theorem scanStep_accept (ray : Ray K) (st : ScanState K) (o : SceneObject K) (hit : HitData K)
    (hhit : o.intersect ray = some hit) (heps : EPSILON ≤ hit.distance)
    (hle : hit.distance ≤ st.minDistance) :
    scanStep ray st o = { minDistance := hit.distance, closest := some (hit, o) } := by
  unfold scanStep
  rw [hhit]
  simp only [not_lt.mpr heps, not_lt.mpr hle, gt_iff_lt, if_false]

/-- The record that `Sphere::intersect` fills in for the ray from `(-1, 0, 0)`
that touches the unit sphere centred at `(0, 1, 0)`. -/
theorem hitAt_tangent_ahead :
    Sphere.hitAt realMath ⟨⟨0, 1, 0⟩, 1⟩ ⟨⟨-1, 0, 0⟩, ⟨1, 0, 0⟩⟩ 1
      = { distance := 1, intersection := ⟨0, 0, 0⟩, normal := ⟨0, -1, 0⟩,
          isInside := false } := by
  unfold Sphere.hitAt Vector3.normalize Vector3.length
  norm_num [dot_prod, realMath]

/-- The hit of a scene object made of that sphere, for that ray. -/
theorem intersect_tangent_ahead (ambient diffuse specular : Vector3 ℝ) (shininess : ℝ)
    (isGlass : Bool) (refractiveIndex : ℝ) :
    (Sphere.toSceneObject realMath ⟨⟨0, 1, 0⟩, 1⟩ ambient diffuse specular shininess isGlass
        refractiveIndex).intersect ⟨⟨-1, 0, 0⟩, ⟨1, 0, 0⟩⟩
      = some { distance := 1, intersection := ⟨0, 0, 0⟩, normal := ⟨0, -1, 0⟩,
               isInside := false } := by
  unfold Sphere.toSceneObject
  simp only
  rw [Sphere.intersect_of_root realMath _ _ _ root_tangent_ahead, hitAt_tangent_ahead]

/-- The value `EPSILON` is at most 1 and 1 is at most `DBL_MAX`. -/
theorem epsilon_le_one_le_dbl_max : (EPSILON : ℝ) ≤ 1 ∧ (1 : ℝ) ≤ realMath.DBL_MAX := by
  constructor
  · norm_num [EPSILON]
  · norm_num [realMath]

/-- The loop over a scene of one such sphere selects it at distance 1. -/
theorem scanObjects_one_tangent (ambient diffuse specular : Vector3 ℝ) (shininess : ℝ)
    (isGlass : Bool) (refractiveIndex : ℝ) :
    (scanObjects realMath ⟨⟨-1, 0, 0⟩, ⟨1, 0, 0⟩⟩
        [Sphere.toSceneObject realMath ⟨⟨0, 1, 0⟩, 1⟩ ambient diffuse specular shininess
          isGlass refractiveIndex]).closest
      = some ({ distance := 1, intersection := ⟨0, 0, 0⟩, normal := ⟨0, -1, 0⟩,
                isInside := false },
          Sphere.toSceneObject realMath ⟨⟨0, 1, 0⟩, 1⟩ ambient diffuse specular shininess
            isGlass refractiveIndex) := by
  unfold scanObjects
  rw [List.foldl_cons, List.foldl_nil,
    scanStep_accept _ _ _ _ (intersect_tangent_ahead _ _ _ _ _ _)
      epsilon_le_one_le_dbl_max.1 epsilon_le_one_le_dbl_max.2]

end ScanLemmas

/-! ## The claims about the object loop of `rayTrace` -/

section ScanClaims

variable {K : Type} [LinearOrderedField K]

/-- C15: the hit that the object loop of `rayTrace` selects is a hit of an
object of the scene at distance `EPSILON` or more, and no object of the scene
yields a hit at distance `EPSILON` or more that is strictly nearer; when every
hit is within the initial bound `DBL_MAX`, the loop selects no object only when
no object yields a hit at distance `EPSILON` or more. -/
theorem scan_selects_nearest (M : CMath K) (ray : Ray K) (objs : List (SceneObject K)) :
    (∀ (hit : HitData K) (obj : SceneObject K),
        (scanObjects M ray objs).closest = some (hit, obj) →
          obj ∈ objs ∧ obj.intersect ray = some hit ∧ EPSILON ≤ hit.distance
            ∧ ∀ o ∈ objs, ∀ h : HitData K, o.intersect ray = some h →
                EPSILON ≤ h.distance → ¬ h.distance < hit.distance)
      ∧ ((∀ o ∈ objs, ∀ h : HitData K, o.intersect ray = some h → h.distance ≤ M.DBL_MAX) →
          (scanObjects M ray objs).closest = none →
            ∀ o ∈ objs, ∀ h : HitData K, o.intersect ray = some h →
              ¬ EPSILON ≤ h.distance) := by
  obtain ⟨_, h1, h2, h3⟩ := scanObjects_inv M ray objs
  constructor
  · intro hit obj hsel
    obtain ⟨hmin, heps, pre, post, hsplit, hobj, _⟩ := h3 hit obj hsel
    refine ⟨?_, hobj, heps, ?_⟩
    · rw [hsplit]
      exact List.mem_append_right _ (List.mem_cons_self _ _)
    · intro o ho h hh hv
      rw [← hmin]
      exact not_lt.mpr (h1 o ho h hh hv)
  · intro hmax hnone o ho h hh hv
    exact absurd ((h2 hnone).2 o ho h hh hv) (not_lt.mpr (hmax o ho h hh))

/-- C15, at a concrete input: a scene of one sphere touched by the ray at
distance 1. -/
theorem scan_selects_nearest_witness :
    (Sphere.toSceneObject realMath ⟨⟨0, 1, 0⟩, 1⟩ ⟨1, 1, 1⟩ ⟨1, 1, 1⟩ ⟨1, 1, 1⟩ 10 false
        1).intersect ⟨⟨-1, 0, 0⟩, ⟨1, 0, 0⟩⟩
        = some { distance := 1, intersection := ⟨0, 0, 0⟩, normal := ⟨0, -1, 0⟩,
                 isInside := false }
      ∧ (EPSILON : ℝ) ≤ 1 :=
  have h := (scan_selects_nearest realMath ⟨⟨-1, 0, 0⟩, ⟨1, 0, 0⟩⟩
    [Sphere.toSceneObject realMath ⟨⟨0, 1, 0⟩, 1⟩ ⟨1, 1, 1⟩ ⟨1, 1, 1⟩ ⟨1, 1, 1⟩ 10 false
      1]).1 _ _ (scanObjects_one_tangent _ _ _ _ _ _)
  ⟨h.2.1, h.2.2.1⟩

end ScanClaims

/-! ## The claim about total internal reflection -/

section ReflectionClaims

variable {K : Type} [LinearOrderedField K]

/-- C17: when the object loop selects a hit on a glass object at a bounce depth
below `MAX_BOUNCES` and `sine_t_sqr > 1`, the invocation of `rayTrace` on the
reflection ray at depth `bounces + 1` returns a colour `reflectionRGB`, and
`rayTrace` returns the sum of the terms of the lights plus
`elem_mult(reflectionRGB, specular)`; the invocations performed are the
outermost one and those of the invocation on the reflection ray, so no
refraction ray is traced. -/
theorem rayTrace_total_internal_reflection (M : CMath K) (ray : Ray K) (rgb : Vector3 K)
    (scene : Scene K) (bounces : Int) (hit : HitData K) (obj : SceneObject K)
    (hb : bounces < MAX_BOUNCES)
    (hscan : (scanObjects M ray scene.sceneObjects).closest = some (hit, obj))
    (hglass : obj.isGlass = true)
    (htir : sineTSqr M obj hit (viewVector M ray hit) > 1) :
    ∃ (reflectionRGB : Vector3 K) (log1 : List Int),
      rayTrace M (MAX_BOUNCES - bounces).toNat
          (reflectionRay hit (viewVector M ray hit) (shadingNormal M hit)) Vector3.zero scene
          (bounces + 1) = some reflectionRGB
        ∧ rayTraceLog M (MAX_BOUNCES - bounces).toNat
            (reflectionRay hit (viewVector M ray hit) (shadingNormal M hit)) Vector3.zero scene
            (bounces + 1) = some (reflectionRGB, log1)
        ∧ rayTrace M ((MAX_BOUNCES - bounces).toNat + 1) ray rgb scene bounces
            = some (localColor M obj hit (viewVector M ray hit) (shadingNormal M hit)
                scene.lights + elem_mult reflectionRGB obj.specular)
        ∧ rayTraceLog M ((MAX_BOUNCES - bounces).toNat + 1) ray rgb scene bounces
            = some (localColor M obj hit (viewVector M ray hit) (shadingNormal M hit)
                scene.lights + elem_mult reflectionRGB obj.specular, bounces :: log1) := by
  obtain ⟨k, hk, hk1⟩ : ∃ k : Nat, (MAX_BOUNCES - bounces).toNat = k + 1
      ∧ bounces + 1 + (k : Int) = MAX_BOUNCES := by
    refine ⟨(MAX_BOUNCES - bounces).toNat - 1, ?_, ?_⟩ <;> omega
  have hne : ¬ bounces = MAX_BOUNCES := ne_of_lt hb
  obtain ⟨c1, log1, h1, _⟩ := rayTraceLog_within_budget M scene k
    (reflectionRay hit (viewVector M ray hit) (shadingNormal M hit)) Vector3.zero
    (bounces + 1) hk1
  have hlog : rayTraceLog M (k + 1 + 1) ray rgb scene bounces
      = some (localColor M obj hit (viewVector M ray hit) (shadingNormal M hit)
          scene.lights + elem_mult c1 obj.specular, bounces :: log1) := by
    rw [rayTraceLog]
    simp only [hscan, hne, hglass, if_false, Bool.true_eq_false, h1, htir, if_true]
  rw [hk]
  refine ⟨c1, log1, ?_, h1, ?_, hlog⟩
  · rw [← rayTraceLog_fst, h1]
    rfl
  · rw [← rayTraceLog_fst, hlog]
    rfl

/-- C17, at a concrete input: a glass sphere of refractive index `1 / 2` touched
by the ray at grazing incidence, at bounce depth 1. -/
theorem rayTrace_total_internal_reflection_witness :
    ∃ reflectionRGB : Vector3 ℝ,
      rayTrace realMath ((MAX_BOUNCES - 1).toNat + 1) ⟨⟨-1, 0, 0⟩, ⟨1, 0, 0⟩⟩ ⟨5, 5, 5⟩
          { sceneObjects := [Sphere.toSceneObject realMath ⟨⟨0, 1, 0⟩, 1⟩ ⟨1, 1, 1⟩ ⟨1, 1, 1⟩
              ⟨1, 1, 1⟩ 10 true (1 / 2)],
            lights := [⟨⟨0, 10, 0⟩, ⟨1, 1, 1⟩, ⟨1, 1, 1⟩, ⟨1, 1, 1⟩⟩],
            cameras := [],
            activeCamera := 0 } 1
        = some (localColor realMath
            (Sphere.toSceneObject realMath ⟨⟨0, 1, 0⟩, 1⟩ ⟨1, 1, 1⟩ ⟨1, 1, 1⟩ ⟨1, 1, 1⟩ 10 true
              (1 / 2))
            { distance := 1, intersection := ⟨0, 0, 0⟩, normal := ⟨0, -1, 0⟩,
              isInside := false }
            (viewVector realMath ⟨⟨-1, 0, 0⟩, ⟨1, 0, 0⟩⟩
              { distance := 1, intersection := ⟨0, 0, 0⟩, normal := ⟨0, -1, 0⟩,
                isInside := false })
            (shadingNormal realMath
              { distance := 1, intersection := ⟨0, 0, 0⟩, normal := ⟨0, -1, 0⟩,
                isInside := false })
            [⟨⟨0, 10, 0⟩, ⟨1, 1, 1⟩, ⟨1, 1, 1⟩, ⟨1, 1, 1⟩⟩]
          + elem_mult reflectionRGB ⟨1, 1, 1⟩) := by
  obtain ⟨c, _, _, _, h3, _⟩ := rayTrace_total_internal_reflection realMath
    ⟨⟨-1, 0, 0⟩, ⟨1, 0, 0⟩⟩ ⟨5, 5, 5⟩
    { sceneObjects := [Sphere.toSceneObject realMath ⟨⟨0, 1, 0⟩, 1⟩ ⟨1, 1, 1⟩ ⟨1, 1, 1⟩
        ⟨1, 1, 1⟩ 10 true (1 / 2)],
      lights := [⟨⟨0, 10, 0⟩, ⟨1, 1, 1⟩, ⟨1, 1, 1⟩, ⟨1, 1, 1⟩⟩],
      cameras := [],
      activeCamera := 0 } 1 _ _
    (by norm_num [MAX_BOUNCES])
    (scanObjects_one_tangent _ _ _ _ _ _)
    rfl
    (by
      simp only [sineTSqr, realMath_exact.pow_two]
      norm_num [indexN1, indexN2, cosI, viewVector, Vector3.normalize, Vector3.length,
        dot_prod, Sphere.toSceneObject]
      split_ifs <;> norm_num)
  exact ⟨c, h3⟩

end ReflectionClaims

/-! ## Facts about the reflection ray of `rayTrace` -/

section ReflectionLemmas

variable {K : Type} [LinearOrderedField K]

end ReflectionLemmas

section ReflectionRayClaims

variable {K : Type} [LinearOrderedField K]

end ReflectionRayClaims

/-! ## The reflection ray does not hit the sphere it leaves -/

section SelfHitLemmas

variable {K : Type} [LinearOrderedField K]

end SelfHitLemmas

section SelfHitClaims

variable {K : Type} [LinearOrderedField K]

end SelfHitClaims

/-! ## The Fresnel terms of `rayTrace` -/

section FresnelLemmas

variable {K : Type} [LinearOrderedField K]

end FresnelLemmas

section FresnelClaims

variable {K : Type} [LinearOrderedField K]

end FresnelClaims

end Renderer
